import Mathlib

/-!
Verification of the candidate-set pipeline of `tools/build_candidate_set.py`
(repository `sx9-orbital`).

The pipeline's core is embedded shallowly:

* `Candidate` mirrors the `Candidate` dataclass.  The numeric type of
  coordinates and scores is a parameter `α` (a `LinearOrderedField`); the
  program runs it at IEEE floats, whose ideal semantics we take to be `ℝ`.
* `haversine_km` is the great-circle distance over `ℝ` (with `atan2`
  restricted to the first quadrant, the only one reachable here since both
  arguments are square roots).
* `deduplicate_candidates` takes the distance function as an explicit
  parameter `distF`; the program instantiates `distF := haversine_km`.
  All combinatorial structure (importance sort, greedy first-match scan,
  in-place merge) is independent of `distF` and stays computable, so that
  generic theorems can be evaluated at `α := ℚ`.
* `dedupClusters` is the same fold instrumented to record, for every
  surviving representative, the original record it started from and the
  candidates merged into it, in merge order.  It is related to
  `deduplicate_candidates` by a proved projection lemma.
-/

set_option maxHeartbeats 1000000
set_option linter.unusedSectionVars false

open Real

/-- The `Candidate` dataclass of `build_candidate_set.py`. -/
structure Candidate (α : Type) where
  id : String
  name : String
  latitude : α
  longitude : α
  zone : String
  source : String
  tier : Option ℤ := none
  demand_gbps : Option α := none
  weather_score : Option α := none
  cable_count : Option ℤ := none
  cables : Option (List String) := none
  merged_sources : Option (List String) := none

/-- Python truthiness of an optional number: `None` and `0` are falsy,
everything else is truthy.  This is the semantics of
`if candidate.cable_count:` and `if candidate.weather_score:`. -/
def pyTruthy {β : Type} [Zero β] [DecidableEq β] (x : Option β) : Bool :=
  match x with
  | none => false
  | some v => decide (v ≠ 0)

variable {α : Type} [LinearOrderedField α]

instance fieldDecidableEq : DecidableEq α := fun a b => LinearOrder.decidableEq a b

/-- The `ZONES` table: (name, lon_min, lon_max, quota), in declaration order. -/
def ZONES (α : Type) [LinearOrderedField α] : List (String × α × α × ℕ) :=
  [("AMERICAS", -180, -30, 72), ("EMEA", -30, 60, 85), ("APAC", 60, 180, 90)]

/-- `assign_zone`: first zone whose half-open interval `[lon_min, lon_max)`
contains the longitude; fallback `"APAC"` when none does. -/
def assign_zone (lon : α) : String :=
  match (ZONES α).find? (fun z => decide (z.2.1 ≤ lon) && decide (lon < z.2.2.1)) with
  | some z => z.1
  | none => "APAC"

/-- The importance key: `(0 if ground_node else 1, -(cable_count or 0))`. -/
def importance (c : Candidate α) : ℕ × ℤ :=
  ((if c.source = "ground_node" then 0 else 1), -(c.cable_count.getD 0))

/-- Non-strict lexicographic order on Python pairs `(ℕ, ℤ)`. -/
def tupleLe (a b : ℕ × ℤ) : Bool :=
  decide (a.1 < b.1) || (decide (a.1 = b.1) && decide (a.2 ≤ b.2))

/-- Strict lexicographic order on Python pairs `(ℕ, ℤ)`. -/
def tupleLt (a b : ℕ × ℤ) : Bool :=
  decide (a.1 < b.1) || (decide (a.1 = b.1) && decide (a.2 < b.2))

/-- The sort relation used by `sorted(candidates, key=importance)`. -/
def importance_le (a b : Candidate α) : Prop :=
  tupleLe (importance a) (importance b) = true

instance importance_le_decidable : DecidableRel (importance_le (α := α)) :=
  fun a b => by unfold importance_le; infer_instance

/-- The cable-info merge of lines 189-195: returns the new
`(cable_count, cables)` pair of the representative.  Note the Python
truthiness checks: a zero count never triggers either branch. -/
def mergeCable (e c : Candidate α) : Option ℤ × Option (List String) :=
  if e.cable_count = none ∧ pyTruthy c.cable_count = true then
    (c.cable_count, c.cables)
  else if pyTruthy e.cable_count = true ∧ pyTruthy c.cable_count = true then
    (some (max (e.cable_count.getD 0) (c.cable_count.getD 0)), e.cables)
  else (e.cable_count, e.cables)

/-- One merge of a duplicate `c` into the representative `e`
(lines 184-199): extend `merged_sources`, merge cable info, and fill the
weather score if the representative has none and `c`'s is truthy. -/
def mergeInto (e c : Candidate α) : Candidate α :=
  { e with
    merged_sources := some (e.merged_sources.getD [e.source] ++ [c.source])
    cable_count := (mergeCable e c).1
    cables := (mergeCable e c).2
    weather_score :=
      if e.weather_score = none ∧ pyTruthy c.weather_score = true then c.weather_score
      else e.weather_score }

/-- The inner loop of `deduplicate_candidates`: scan `unique` for the first
representative within `t` of `c`; on a hit, merge `c` into it in place and
stop.  `none` means the scan fell through without a match. -/
def scanMerge (distF : α → α → α → α → α) (t : α) (c : Candidate α) :
    List (Candidate α) → Option (List (Candidate α))
  | [] => none
  | e :: rest =>
    if distF c.latitude c.longitude e.latitude e.longitude < t then
      some (mergeInto e c :: rest)
    else (scanMerge distF t c rest).map (e :: ·)

/-- One iteration of the outer loop: merge `c` into the first near
representative, or append it to `unique` as a new representative. -/
def dedupStep (distF : α → α → α → α → α) (t : α)
    (unique : List (Candidate α)) (c : Candidate α) : List (Candidate α) :=
  match scanMerge distF t c unique with
  | some u => u
  | none => unique ++ [c]

/-- `deduplicate_candidates(candidates, threshold_km)`: sort by the
importance key (Python's `sorted` is stable; so is insertion sort), then
greedily fold the candidates into the list of unique representatives.
The distance function is a parameter; the program passes `haversine_km`. -/
def deduplicate_candidates (distF : α → α → α → α → α)
    (candidates : List (Candidate α)) (threshold_km : α) : List (Candidate α) :=
  (List.insertionSort importance_le candidates).foldl (dedupStep distF threshold_km) []

/-- Instrumented cluster: the current (merged) representative, the original
record it started from, and the candidates merged into it, in merge order. -/
structure Cluster (α : Type) where
  rep : Candidate α
  orig : Candidate α
  members : List (Candidate α)

/-- Instrumented inner loop: identical scan, but the hit also records the
absorbed candidate in `members`. -/
def scanMergeC (distF : α → α → α → α → α) (t : α) (c : Candidate α) :
    List (Cluster α) → Option (List (Cluster α))
  | [] => none
  | cl :: rest =>
    if distF c.latitude c.longitude cl.rep.latitude cl.rep.longitude < t then
      some ({ rep := mergeInto cl.rep c, orig := cl.orig,
              members := cl.members ++ [c] } :: rest)
    else (scanMergeC distF t c rest).map (cl :: ·)

/-- Instrumented outer-loop iteration. -/
def dedupStepC (distF : α → α → α → α → α) (t : α)
    (unique : List (Cluster α)) (c : Candidate α) : List (Cluster α) :=
  match scanMergeC distF t c unique with
  | some u => u
  | none => unique ++ [⟨c, c, []⟩]

/-- The deduplication fold with cluster instrumentation. -/
def dedupClusters (distF : α → α → α → α → α)
    (candidates : List (Candidate α)) (threshold_km : α) : List (Cluster α) :=
  (List.insertionSort importance_le candidates).foldl (dedupStepC distF threshold_km) []

/-- Specification-side description of the merged cable count (spec §3):
the maximum cable count observed across the representative's own initial
value and all merged-in values — except that absent and zero observations
contribute nothing, and a representative that starts at exactly `0` keeps
`0` forever (the truthiness carve-out the code imposes). -/
def cableCountSpec (init : Option ℤ) (ms : List (Option ℤ)) : Option ℤ :=
  if init = some 0 then some 0
  else
    match ((init :: ms).filterMap id).filter (fun k => decide (k ≠ 0)) with
    | [] => init
    | k :: ks => some (ks.foldl max k)

/-- Specification-side description of the merged weather score (spec §3):
the representative's own score when present, otherwise the first nonzero
score among the absorbed candidates in merge order. -/
def weatherSpec (init : Option α) (ms : List (Option α)) : Option α :=
  match init with
  | some w => some w
  | none => ((ms.filterMap id).filter (fun w => decide (w ≠ 0))).head?

/-- The eight fields `deduplicate_candidates` never writes:
id, name, latitude, longitude, zone, source, tier, demand_gbps. -/
def frameOf (c : Candidate α) :
    String × String × α × α × String × String × Option ℤ × Option α :=
  (c.id, c.name, c.latitude, c.longitude, c.zone, c.source, c.tier, c.demand_gbps)

/-- Merging a duplicate never lowers a present cable count. -/
def cableNotLowered (a b : Option ℤ) : Prop :=
  match a, b with
  | none, _ => True
  | some _, none => False
  | some j, some k => j ≤ k

/-- A ground-node source record, as consumed by `load_ground_nodes`
(`None` models an absent field). -/
structure GroundNodeRecord (α : Type) where
  latitude : Option α
  longitude : Option α
  id : Option String := none
  name : Option String := none
  tier : Option ℤ := none
  demand_gbps : Option α := none
  weather_score : Option α := none

/-- A cable-landing source record, as consumed by `load_cable_landings`. -/
structure CableLandingRecord (α : Type) where
  latitude : Option α
  longitude : Option α
  id : Option String := none
  name : Option String := none
  cable_count : Option ℤ := none
  cables : Option (List String) := none

/-- `load_ground_nodes` minus file I/O: normalize each record, silently
dropping those without both coordinates.  Ground-node candidates carry no
cable fields (they stay `none`). -/
def load_ground_nodes (nodes : List (GroundNodeRecord α)) : List (Candidate α) :=
  nodes.foldl (fun acc node =>
    match node.latitude, node.longitude with
    | some lat, some lon =>
      acc ++ [{ id := node.id.getD ("gn-" ++ toString acc.length)
                name := node.name.getD "Unknown"
                latitude := lat, longitude := lon
                zone := assign_zone lon
                source := "ground_node"
                tier := node.tier
                demand_gbps := node.demand_gbps
                weather_score := node.weather_score }]
    | _, _ => acc) []

/-- `load_cable_landings` minus file I/O: note `cable_count` defaults to
`0` and `cables` to `[]` when the record omits them, so both fields are
always present on a cable-landing candidate. -/
def load_cable_landings (points : List (CableLandingRecord α)) : List (Candidate α) :=
  points.foldl (fun acc point =>
    match point.latitude, point.longitude with
    | some lat, some lon =>
      acc ++ [{ id := point.id.getD ("cl-" ++ toString acc.length)
                name := point.name.getD "Unknown"
                latitude := lat, longitude := lon
                zone := assign_zone lon
                source := "cable_landing"
                cable_count := some (point.cable_count.getD 0)
                cables := some (point.cables.getD []) }]
    | _, _ => acc) []

/-- `math.radians`. -/
noncomputable def radians (x : ℝ) : ℝ := x * π / 180

/-- `math.atan2` restricted to the closed first quadrant, the only region
reachable from `haversine_km` (both arguments are square roots):
`atan2 y x = arctan (y / x)` for `x > 0`, `π/2` on the positive `y` axis,
and `0` at the origin (as in IEEE `atan2(0, 0)`). -/
noncomputable def atan2 (y x : ℝ) : ℝ :=
  if 0 < x then Real.arctan (y / x) else if 0 < y then π / 2 else 0

/-- The intermediate `a` of `haversine_km` (line 73). -/
noncomputable def hav_a (lat1 lon1 lat2 lon2 : ℝ) : ℝ :=
  Real.sin (radians (lat2 - lat1) / 2) ^ 2 +
    Real.cos (radians lat1) * Real.cos (radians lat2) *
      Real.sin (radians (lon2 - lon1) / 2) ^ 2

/-- `haversine_km`: great-circle distance in km, Earth radius 6371.0. -/
noncomputable def haversine_km (lat1 lon1 lat2 lon2 : ℝ) : ℝ :=
  6371.0 * (2 * atan2 (Real.sqrt (hav_a lat1 lon1 lat2 lon2))
    (Real.sqrt (1 - hav_a lat1 lon1 lat2 lon2)))

/-- Componentwise agreement on the eight fields of `frameOf`, as a
decidable Boolean test. -/
def frameAgree (a b : Candidate α) : Bool :=
  decide (a.id = b.id) && decide (a.name = b.name) &&
    decide (a.latitude = b.latitude) && decide (a.longitude = b.longitude) &&
    decide (a.zone = b.zone) && decide (a.source = b.source) &&
    decide (a.tier = b.tier) && decide (a.demand_gbps = b.demand_gbps)

/-- The coordinate pair of a candidate (the only data the distance scan
reads from a representative). -/
def coordsOf (c : Candidate α) : α × α := (c.latitude, c.longitude)

/-- C3 scenario, ground-node record: `(40.0, -74.0, ground_node, cable_count=None)`. -/
def c3_g : Candidate ℝ :=
  { id := "gn-0", name := "NYC Ground", latitude := 40, longitude := -74,
    zone := "AMERICAS", source := "ground_node" }

/-- C3 scenario, cable-landing record: `(40.1, -74.05, cable_landing, cable_count=5)`. -/
def c3_c : Candidate ℝ :=
  { id := "cl-0", name := "NYC Landing", latitude := 40.1, longitude := -74.05,
    zone := "AMERICAS", source := "cable_landing",
    cable_count := some 5, cables := some [] }

/-- C1 counterexample, representative: a ground node carrying `cable_count = 0`. -/
def c1_g : Candidate ℝ :=
  { id := "g", name := "G", latitude := 0, longitude := 0,
    zone := "EMEA", source := "ground_node", cable_count := some 0 }

/-- C1 counterexample, duplicate: a cable landing with `cable_count = 5` at the
same location. -/
def c1_c : Candidate ℝ :=
  { id := "c", name := "C", latitude := 0, longitude := 0,
    zone := "EMEA", source := "cable_landing",
    cable_count := some 5, cables := some [] }

/-- C4 counterexample, representative: no weather score; cable count `3` pins
its sort position first. -/
def c4_r : Candidate ℝ :=
  { id := "r", name := "R", latitude := 0, longitude := 0,
    zone := "EMEA", source := "ground_node", cable_count := some 3 }

/-- C4 counterexample, first duplicate: provides `weather_score = 0.0`. -/
def c4_d1 : Candidate ℝ :=
  { id := "d1", name := "D1", latitude := 0, longitude := 0,
    zone := "EMEA", source := "ground_node", cable_count := some 2,
    weather_score := some 0 }

/-- C4 counterexample, second duplicate: provides `weather_score = 1.0`. -/
def c4_d2 : Candidate ℝ :=
  { id := "d2", name := "D2", latitude := 0, longitude := 0,
    zone := "EMEA", source := "ground_node", cable_count := some 1,
    weather_score := some 1 }

/-- C8 chain, middle point `B`: a ground node at `(0, 90)`. -/
def c8_B : Candidate ℝ :=
  { id := "B", name := "B", latitude := 0, longitude := 90,
    zone := "APAC", source := "ground_node" }

/-- C8 chain, endpoint `A`: a cable landing at `(0, 0)`. -/
def c8_A : Candidate ℝ :=
  { id := "A", name := "A", latitude := 0, longitude := 0,
    zone := "EMEA", source := "cable_landing",
    cable_count := some 1, cables := some [] }

/-- C8 chain, endpoint `C`: a cable landing at `(0, 180)`. -/
def c8_C : Candidate ℝ :=
  { id := "C", name := "C", latitude := 0, longitude := 180,
    zone := "APAC", source := "cable_landing",
    cable_count := some 1, cables := some [] }

/-! ### Basic properties of the distance function -/

theorem hav_a_self (l g : ℝ) : hav_a l g l g = 0 := by
  unfold hav_a
  rw [show radians (l - l) = 0 by unfold radians; ring,
    show radians (g - g) = 0 by unfold radians; ring]
  simp

theorem atan2_zero_one : atan2 0 1 = 0 := by
  unfold atan2
  rw [if_pos one_pos]
  simp

theorem haversine_self (l g : ℝ) : haversine_km l g l g = 0 := by
  unfold haversine_km
  rw [hav_a_self]
  norm_num [atan2_zero_one]

theorem hav_a_symm (l1 g1 l2 g2 : ℝ) : hav_a l1 g1 l2 g2 = hav_a l2 g2 l1 g1 := by
  unfold hav_a
  rw [show radians (l1 - l2) = -radians (l2 - l1) by unfold radians; ring,
    show radians (g1 - g2) = -radians (g2 - g1) by unfold radians; ring]
  rw [neg_div, Real.sin_neg, neg_div, Real.sin_neg]
  ring

theorem haversine_symm (l1 g1 l2 g2 : ℝ) :
    haversine_km l1 g1 l2 g2 = haversine_km l2 g2 l1 g1 := by
  unfold haversine_km
  rw [hav_a_symm]

theorem atan2_nonneg {y : ℝ} (x : ℝ) (hy : 0 ≤ y) : 0 ≤ atan2 y x := by
  unfold atan2
  split_ifs with hx hy'
  · have h0 : Real.arctan 0 ≤ Real.arctan (y / x) :=
      Real.arctan_strictMono.monotone (div_nonneg hy hx.le)
    rwa [Real.arctan_zero] at h0
  · positivity
  · exact le_refl 0

theorem haversine_nonneg (l1 g1 l2 g2 : ℝ) : 0 ≤ haversine_km l1 g1 l2 g2 := by
  unfold haversine_km
  have h := atan2_nonneg (Real.sqrt (1 - hav_a l1 g1 l2 g2))
    (Real.sqrt_nonneg (hav_a l1 g1 l2 g2))
  nlinarith

theorem arctan_le_self {x : ℝ} (hx : 0 ≤ x) : Real.arctan x ≤ x := by
  rcases eq_or_lt_of_le hx with h | h
  · rw [← h, Real.arctan_zero]
  · have h1 : 0 < Real.arctan x := by
      have := Real.arctan_strictMono h
      rwa [Real.arctan_zero] at this
    have h2 : Real.arctan x < π / 2 := Real.arctan_lt_pi_div_two x
    have h3 := Real.lt_tan h1 h2
    rw [Real.tan_arctan] at h3
    exact h3.le

/-! ### Structural lemmas about merging -/

@[simp] theorem mergeInto_latitude (e c : Candidate α) :
    (mergeInto e c).latitude = e.latitude := rfl

@[simp] theorem mergeInto_longitude (e c : Candidate α) :
    (mergeInto e c).longitude = e.longitude := rfl

theorem mergeInto_frame (e c : Candidate α) : frameOf (mergeInto e c) = frameOf e := rfl

theorem foldl_mergeInto_frame (ms : List (Candidate α)) (e : Candidate α) :
    frameOf (ms.foldl mergeInto e) = frameOf e := by
  induction ms generalizing e with
  | nil => rfl
  | cons c rest ih => rw [List.foldl_cons, ih, mergeInto_frame]

/-! ### The inner scan -/

theorem scanMerge_eq_none {distF : α → α → α → α → α} {t : α} {c : Candidate α}
    {ul : List (Candidate α)} :
    scanMerge distF t c ul = none ↔
      ∀ e ∈ ul, ¬ distF c.latitude c.longitude e.latitude e.longitude < t := by
  induction ul with
  | nil => simp [scanMerge]
  | cons e rest ih =>
    simp only [scanMerge]
    split_ifs with h
    · simp [h]
    · rw [Option.map_eq_none', ih]
      simp only [List.mem_cons, forall_eq_or_imp]
      simp [h]

theorem scanMerge_some_map_coords {distF : α → α → α → α → α} {t : α}
    {c : Candidate α} {ul u : List (Candidate α)}
    (h : scanMerge distF t c ul = some u) :
    u.map coordsOf = ul.map coordsOf := by
  induction ul generalizing u with
  | nil => simp [scanMerge] at h
  | cons e rest ih =>
    simp only [scanMerge] at h
    split_ifs at h with hd
    · rw [Option.some_inj] at h
      subst h
      simp [coordsOf]
    · rcases Option.map_eq_some'.1 h with ⟨u', hu', rfl⟩
      simp [ih hu']

/-! ### The pairwise-distance invariant (claim C2's guarantee) -/

theorem dedupStep_pairwise {distF : α → α → α → α → α} {t : α}
    {ul : List (Candidate α)} (c : Candidate α)
    (h : ul.Pairwise (fun a b => t ≤ distF b.latitude b.longitude a.latitude a.longitude)) :
    (dedupStep distF t ul c).Pairwise
      (fun a b => t ≤ distF b.latitude b.longitude a.latitude a.longitude) := by
  unfold dedupStep
  cases hs : scanMerge distF t c ul with
  | none =>
    rw [List.pairwise_append]
    refine ⟨h, List.pairwise_singleton _ _, ?_⟩
    intro a ha b hb
    rw [List.mem_singleton] at hb
    subst hb
    exact not_lt.1 (scanMerge_eq_none.1 hs a ha)
  | some u =>
    have h1 : (ul.map coordsOf).Pairwise
        (fun p q : α × α => t ≤ distF q.1 q.2 p.1 p.2) := (List.pairwise_map).2 h
    have h2 : (u.map coordsOf).Pairwise
        (fun p q : α × α => t ≤ distF q.1 q.2 p.1 p.2) := by
      rw [scanMerge_some_map_coords hs]; exact h1
    exact (List.pairwise_map).1 h2

theorem dedup_pairwise (distF : α → α → α → α → α) (cs : List (Candidate α)) (t : α) :
    (deduplicate_candidates distF cs t).Pairwise
      (fun a b => t ≤ distF b.latitude b.longitude a.latitude a.longitude) := by
  unfold deduplicate_candidates
  generalize List.insertionSort importance_le cs = l
  suffices H : ∀ (l ul : List (Candidate α)),
      ul.Pairwise (fun a b => t ≤ distF b.latitude b.longitude a.latitude a.longitude) →
      (l.foldl (dedupStep distF t) ul).Pairwise
        (fun a b => t ≤ distF b.latitude b.longitude a.latitude a.longitude) from
    H l [] List.Pairwise.nil
  intro l
  induction l with
  | nil => intro ul h; exact h
  | cons c rest ih => intro ul h; exact ih _ (dedupStep_pairwise c h)

/-! ### The no-merge run (towards idempotence, claim C5) -/

theorem foldl_dedupStep_no_merge {distF : α → α → α → α → α} {t : α} :
    ∀ (pending ul : List (Candidate α)),
      (∀ c ∈ pending, ∀ e ∈ ul, ¬ distF c.latitude c.longitude e.latitude e.longitude < t) →
      pending.Pairwise
        (fun a b => ¬ distF b.latitude b.longitude a.latitude a.longitude < t) →
      pending.foldl (dedupStep distF t) ul = ul ++ pending := by
  intro pending
  induction pending with
  | nil => intro ul _ _; simp
  | cons c rest ih =>
    intro ul hfar hpw
    have hnone : scanMerge distF t c ul = none :=
      scanMerge_eq_none.2 (fun e he => hfar c (List.mem_cons_self c rest) e he)
    cases hpw with
    | cons hc hrest =>
      rw [List.foldl_cons,
        show dedupStep distF t ul c = ul ++ [c] from by unfold dedupStep; rw [hnone]]
      rw [ih (ul ++ [c]) ?hfar1 hrest]
      · simp
      case hfar1 =>
        intro c' hc' e he
        rcases List.mem_append.1 he with h1 | h1
        · exact hfar c' (List.mem_cons_of_mem c hc') e h1
        · rw [List.mem_singleton] at h1
          subst h1
          exact hc c' hc'

theorem dedup_idem_of_symm (distF : α → α → α → α → α)
    (hsym : ∀ a b c d, distF a b c d = distF c d a b)
    (cs : List (Candidate α)) (t : α) :
    (deduplicate_candidates distF (deduplicate_candidates distF cs t) t).Perm
      (deduplicate_candidates distF cs t) := by
  set out := deduplicate_candidates distF cs t with hout
  have h1 := dedup_pairwise distF cs t
  rw [← hout] at h1
  have h2 : out.Pairwise
      (fun a b => (¬ distF b.latitude b.longitude a.latitude a.longitude < t) ∧
        ¬ distF a.latitude a.longitude b.latitude b.longitude < t) := by
    refine h1.imp ?_
    intro a b h
    exact ⟨not_lt.2 h, not_lt.2 (by rw [hsym]; exact h)⟩
  have hperm : (List.insertionSort importance_le out).Perm out :=
    List.perm_insertionSort _ _
  have h3 := (hperm.pairwise_iff (fun h => ⟨h.2, h.1⟩)).2 h2
  show ((List.insertionSort importance_le out).foldl (dedupStep distF t) []).Perm out
  rw [foldl_dedupStep_no_merge (List.insertionSort importance_le out) []
    (by intro c hc e he; simp at he) (h3.imp fun h => h.1)]
  rw [List.nil_append]
  exact hperm

/-! ### Relating the instrumented fold to the program's fold -/

theorem scanMergeC_map_rep (distF : α → α → α → α → α) (t : α) (c : Candidate α)
    (ul : List (Cluster α)) :
    scanMerge distF t c (ul.map Cluster.rep) =
      (scanMergeC distF t c ul).map (List.map Cluster.rep) := by
  induction ul with
  | nil => simp [scanMerge, scanMergeC]
  | cons cl rest ih =>
    simp only [List.map_cons, scanMerge, scanMergeC]
    split_ifs with h
    · simp
    · rw [ih]
      rcases scanMergeC distF t c rest with _ | u <;> simp

theorem foldl_dedupStepC_map (distF : α → α → α → α → α) (t : α) :
    ∀ (pending : List (Candidate α)) (ul : List (Cluster α)),
      List.foldl (dedupStep distF t) (ul.map Cluster.rep) pending =
        (List.foldl (dedupStepC distF t) ul pending).map Cluster.rep := by
  intro pending
  induction pending with
  | nil => intro ul; simp
  | cons c rest ih =>
    intro ul
    rw [List.foldl_cons, List.foldl_cons,
      show dedupStep distF t (ul.map Cluster.rep) c = (dedupStepC distF t ul c).map Cluster.rep from ?_,
      ih]
    unfold dedupStep dedupStepC
    rw [scanMergeC_map_rep]
    rcases scanMergeC distF t c ul with _ | u
    · simp
    · simp

theorem dedup_eq_clusters (distF : α → α → α → α → α)
    (cs : List (Candidate α)) (t : α) :
    deduplicate_candidates distF cs t = (dedupClusters distF cs t).map Cluster.rep := by
  have h := foldl_dedupStepC_map distF t (List.insertionSort importance_le cs) []
  simpa [deduplicate_candidates, dedupClusters] using h

/-! ### Invariants of the instrumented fold -/

theorem scanMergeC_forall {distF : α → α → α → α → α} {t : α} {c : Candidate α}
    (P : Cluster α → Prop)
    (hP : ∀ cl : Cluster α, P cl →
      P ⟨mergeInto cl.rep c, cl.orig, cl.members ++ [c]⟩) :
    ∀ {ul u : List (Cluster α)}, scanMergeC distF t c ul = some u →
      ul.Forall P → u.Forall P := by
  intro ul
  induction ul with
  | nil => intro u h; simp [scanMergeC] at h
  | cons cl rest ih =>
    intro u h hall
    simp only [scanMergeC] at h
    rw [List.forall_cons] at hall
    split_ifs at h with hd
    · rw [Option.some_inj] at h
      subst h
      rw [List.forall_cons]
      exact ⟨hP cl hall.1, hall.2⟩
    · rcases Option.map_eq_some'.1 h with ⟨u', hu', rfl⟩
      rw [List.forall_cons]
      exact ⟨hall.1, ih hu' hall.2⟩

theorem dedupClusters_invariant (distF : α → α → α → α → α) (t : α)
    (Q : Candidate α → Prop) :
    ∀ (pending : List (Candidate α)) (ul : List (Cluster α)),
      (∀ x ∈ pending, Q x) →
      ul.Forall (fun cl => Q cl.orig ∧ cl.rep = cl.members.foldl mergeInto cl.orig) →
      (List.foldl (dedupStepC distF t) ul pending).Forall
        (fun cl => Q cl.orig ∧ cl.rep = cl.members.foldl mergeInto cl.orig) := by
  intro pending
  induction pending with
  | nil => intro ul _ h; simpa using h
  | cons c rest ih =>
    intro ul hQ hall
    rw [List.foldl_cons]
    refine ih _ (fun x hx => hQ x (List.mem_cons_of_mem c hx)) ?_
    unfold dedupStepC
    cases hs : scanMergeC distF t c ul with
    | none =>
      show List.Forall _ (ul ++ [⟨c, c, []⟩])
      rw [List.forall_iff_forall_mem] at hall ⊢
      intro x hx
      rcases List.mem_append.1 hx with h1 | h1
      · exact hall x h1
      · rw [List.mem_singleton] at h1
        subst h1
        exact ⟨hQ c (List.mem_cons_self c rest), rfl⟩
    | some u =>
      show List.Forall _ u
      refine scanMergeC_forall _ ?_ hs hall
      intro cl hcl
      refine ⟨hcl.1, ?_⟩
      rw [List.foldl_append, ← hcl.2, List.foldl_cons, List.foldl_nil]

theorem dedupClusters_forall (distF : α → α → α → α → α)
    (cs : List (Candidate α)) (t : α) :
    (dedupClusters distF cs t).Forall
      (fun cl => cl.orig ∈ cs ∧ cl.rep = cl.members.foldl mergeInto cl.orig) := by
  unfold dedupClusters
  refine dedupClusters_invariant distF t (fun x => x ∈ cs) _ [] ?_ trivial
  intro x hx
  exact (List.perm_insertionSort importance_le cs).subset hx

/-! ### Characterizing the merged cable count and weather score -/

theorem cableCountSpec_nil (a : Option ℤ) : cableCountSpec a [] = a := by
  rcases a with _ | k
  · simp [cableCountSpec]
  · by_cases hk : k = 0
    · subst hk; simp [cableCountSpec]
    · simp [cableCountSpec, hk]

theorem cableCountSpec_step (e c : Candidate α) (L : List (Option ℤ)) :
    cableCountSpec (mergeCable e c).1 L =
      cableCountSpec e.cable_count (c.cable_count :: L) := by
  rcases he : e.cable_count with _ | j <;> rcases hc : c.cable_count with _ | k
  · simp [mergeCable, he, hc, pyTruthy, cableCountSpec]
  · by_cases hk : k = 0
    · subst hk
      simp [mergeCable, he, hc, pyTruthy, cableCountSpec]
    · simp [mergeCable, he, hc, pyTruthy, hk, cableCountSpec]
  · simp [mergeCable, he, hc, pyTruthy, cableCountSpec]
  · by_cases hj : j = 0
    · subst hj
      simp [mergeCable, he, hc, pyTruthy, cableCountSpec]
    · by_cases hk : k = 0
      · subst hk
        simp [mergeCable, he, hc, pyTruthy, hj, cableCountSpec]
      · have hmax : max j k ≠ 0 := by
          rcases max_choice j k with h | h <;> rw [h] <;> assumption
        simp only [mergeCable, he, hc, pyTruthy]
        simp only [decide_eq_true_eq, hj, hk]
        simp [cableCountSpec, hj, hk, hmax]

theorem foldl_mergeInto_cable (ms : List (Candidate α)) (e : Candidate α) :
    (ms.foldl mergeInto e).cable_count =
      cableCountSpec e.cable_count (ms.map Candidate.cable_count) := by
  induction ms generalizing e with
  | nil => rw [List.foldl_nil, List.map_nil, cableCountSpec_nil]
  | cons c rest ih =>
    rw [List.foldl_cons, List.map_cons, ih (mergeInto e c),
      show (mergeInto e c).cable_count = (mergeCable e c).1 from rfl,
      cableCountSpec_step]

theorem weatherSpec_nil (a : Option α) : weatherSpec a [] = a := by
  rcases a with _ | w <;> simp [weatherSpec]

theorem weatherSpec_step (e c : Candidate α) (L : List (Option α)) :
    weatherSpec (mergeInto e c).weather_score L =
      weatherSpec e.weather_score (c.weather_score :: L) := by
  have hw : (mergeInto e c).weather_score =
      if e.weather_score = none ∧ pyTruthy c.weather_score = true then c.weather_score
      else e.weather_score := rfl
  rcases he : e.weather_score with _ | w
  · rcases hc : c.weather_score with _ | v
    · rw [hw, he, hc]
      simp [pyTruthy, weatherSpec]
    · by_cases hv : v = 0
      · subst hv
        rw [hw, he, hc]
        simp [pyTruthy, weatherSpec]
      · rw [hw, he, hc]
        simp [pyTruthy, hv, weatherSpec]
  · rw [hw, he]
    simp [weatherSpec]

theorem foldl_mergeInto_weather (ms : List (Candidate α)) (e : Candidate α) :
    (ms.foldl mergeInto e).weather_score =
      weatherSpec e.weather_score (ms.map Candidate.weather_score) := by
  induction ms generalizing e with
  | nil => rw [List.foldl_nil, List.map_nil, weatherSpec_nil]
  | cons c rest ih =>
    rw [List.foldl_cons, List.map_cons, ih (mergeInto e c), weatherSpec_step]

/-! ### Auxiliary fold lemma for the loaders -/

theorem foldl_forall_aux {R : Type} (P : Candidate α → Prop)
    (f : List (Candidate α) → R → List (Candidate α)) :
    ∀ (l : List R) (acc : List (Candidate α)),
      (∀ (acc' : List (Candidate α)) (r : R), r ∈ l →
        acc'.Forall P → (f acc' r).Forall P) →
      acc.Forall P → (l.foldl f acc).Forall P := by
  intro l
  induction l with
  | nil => intro acc _ h; exact h
  | cons r rest ih =>
    intro acc hf h
    rw [List.foldl_cons]
    exact ih _ (fun acc' r' hr' => hf acc' r' (List.mem_cons_of_mem r hr'))
      (hf acc r (List.mem_cons_self r rest) h)

/-! ### Claim theorems (abstract part) -/

/-- C2: for every input candidate list and every threshold `t`, any two
distinct representatives in the output of `deduplicate_candidates` are at
haversine distance at least `t` from each other (stated positionally via
`Pairwise`; the relation is symmetric by `haversine_symm`). -/
theorem claim_C2 (cs : List (Candidate ℝ)) (t : ℝ) :
    (deduplicate_candidates haversine_km cs t).Pairwise
      (fun a b => t ≤ haversine_km a.latitude a.longitude b.latitude b.longitude) := by
  refine (dedup_pairwise haversine_km cs t).imp ?_
  intro a b hab
  rw [haversine_symm]
  exact hab

/-- C5: `deduplicate_candidates` is idempotent: run on its own output with
the same threshold it performs no merge — the result is a permutation of
the first output (nothing is absorbed) and in particular has the same
length. -/
theorem claim_C5 (cs : List (Candidate ℝ)) (t : ℝ) :
    (deduplicate_candidates haversine_km
        (deduplicate_candidates haversine_km cs t) t).Perm
      (deduplicate_candidates haversine_km cs t) ∧
    (deduplicate_candidates haversine_km
        (deduplicate_candidates haversine_km cs t) t).length =
      (deduplicate_candidates haversine_km cs t).length := by
  have h := dedup_idem_of_symm haversine_km haversine_symm cs t
  exact ⟨h, h.length_eq⟩

theorem frameAgree_of_frameOf {a b : Candidate α} (h : frameOf a = frameOf b) :
    frameAgree a b = true := by
  simp only [frameOf, Prod.mk.injEq] at h
  obtain ⟨h1, h2, h3, h4, h5, h6, h7, h8⟩ := h
  simp [frameAgree, h1, h2, h3, h4, h5, h6, h7, h8]

/-- C9: `deduplicate_candidates` never creates a new candidate and never
touches the fields id, name, latitude, longitude, zone, source, tier,
demand_gbps (tested componentwise by `frameAgree`): every output element
agrees on all eight with some input candidate.  Stated for an arbitrary
distance function, hence in particular for `haversine_km`. -/
theorem claim_C9 (distF : α → α → α → α → α) (cs : List (Candidate α)) (t : α) :
    (deduplicate_candidates distF cs t).Forall
      (fun out => (cs.any fun inp => frameAgree inp out) = true) := by
  rw [dedup_eq_clusters]
  have h := dedupClusters_forall distF cs t
  rw [List.forall_iff_forall_mem] at h ⊢
  intro out hout
  rcases List.mem_map.1 hout with ⟨cl, hcl, rfl⟩
  have h2 := h cl hcl
  rw [List.any_eq_true]
  refine ⟨cl.orig, h2.1, frameAgree_of_frameOf ?_⟩
  rw [h2.2, foldl_mergeInto_frame]

/-- C1 (amended): relating `deduplicate_candidates` to its instrumented
clusters, every surviving representative's final `cable_count` equals
`cableCountSpec` — the maximum of the nonzero cable counts observed across
the representative's initial value and all merged candidates, except that
a representative starting at exactly `0` keeps `0` — and a single merge
never lowers a present cable count. -/
theorem claim_C1_amended (distF : α → α → α → α → α)
    (cs : List (Candidate α)) (t : α) :
    deduplicate_candidates distF cs t = (dedupClusters distF cs t).map Cluster.rep ∧
    (dedupClusters distF cs t).Forall (fun cl =>
      cl.rep.cable_count =
        cableCountSpec cl.orig.cable_count (cl.members.map Candidate.cable_count)) ∧
    ∀ e c : Candidate α, cableNotLowered e.cable_count (mergeInto e c).cable_count := by
  refine ⟨dedup_eq_clusters distF cs t, ?_, ?_⟩
  · have h := dedupClusters_forall distF cs t
    rw [List.forall_iff_forall_mem] at h ⊢
    intro cl hcl
    rw [(h cl hcl).2, foldl_mergeInto_cable]
  · intro e c
    rcases he : e.cable_count with _ | j
    · trivial
    · rcases hc : c.cable_count with _ | k
      · have hres : (mergeCable e c).1 = some j := by
          unfold mergeCable
          rw [he, hc]
          simp [pyTruthy]
        rw [show (mergeInto e c).cable_count = (mergeCable e c).1 from rfl, hres]
        exact le_refl j
      · by_cases hk : k = 0
        · have hres : (mergeCable e c).1 = some j := by
            unfold mergeCable
            rw [he, hc]
            subst hk
            simp [pyTruthy]
          rw [show (mergeInto e c).cable_count = (mergeCable e c).1 from rfl, hres]
          exact le_refl j
        · by_cases hj : j = 0
          · have hres : (mergeCable e c).1 = some j := by
              unfold mergeCable
              rw [he, hc]
              subst hj
              simp [pyTruthy, hk]
            rw [show (mergeInto e c).cable_count = (mergeCable e c).1 from rfl, hres]
            exact le_refl j
          · have hres : (mergeCable e c).1 = some (max j k) := by
              unfold mergeCable
              rw [he, hc]
              simp [pyTruthy, hj, hk]
            rw [show (mergeInto e c).cable_count = (mergeCable e c).1 from rfl, hres]
            exact le_max_left j k

/-- C4 (amended): every surviving representative's final `weather_score`
equals `weatherSpec` — its own initial score when present (even zero, and
then it is never overridden), otherwise the first nonzero score among the
absorbed candidates in merge order; a merged candidate whose score is
exactly `0` is skipped by the truthiness check. -/
theorem claim_C4_amended (distF : α → α → α → α → α)
    (cs : List (Candidate α)) (t : α) :
    deduplicate_candidates distF cs t = (dedupClusters distF cs t).map Cluster.rep ∧
    (dedupClusters distF cs t).Forall (fun cl =>
      cl.rep.weather_score =
        weatherSpec cl.orig.weather_score (cl.members.map Candidate.weather_score)) := by
  refine ⟨dedup_eq_clusters distF cs t, ?_⟩
  have h := dedupClusters_forall distF cs t
  rw [List.forall_iff_forall_mem] at h ⊢
  intro cl hcl
  rw [(h cl hcl).2, foldl_mergeInto_weather]

/-- C10: cable-landing normalization always yields present `cable_count`
and `cables`, ground-node normalization always leaves both `none`, a
cable-landing record with no `cable_count` yields a candidate with
`cable_count = some 0`, and a cable-landing record with no `cables`
yields a candidate with `cables = some []`. -/
theorem claim_C10 (nodes : List (GroundNodeRecord α))
    (points : List (CableLandingRecord α)) :
    (load_cable_landings points).Forall
      (fun c => c.cable_count ≠ none ∧ c.cables ≠ none) ∧
    (load_ground_nodes nodes).Forall
      (fun c => c.cable_count = none ∧ c.cables = none) ∧
    (load_cable_landings (points.map (fun p => { p with cable_count := none }))).Forall
      (fun c => c.cable_count = some 0) ∧
    (load_cable_landings (points.map (fun p => { p with cables := none }))).Forall
      (fun c => c.cables = some []) := by
  refine ⟨?_, ?_, ?_, ?_⟩
  · unfold load_cable_landings
    refine foldl_forall_aux _ _ _ [] ?_ trivial
    intro acc p _ hacc
    rcases p with ⟨plat, plon, pid, pname, pcc, pcables⟩
    rcases plat with _ | lat <;> rcases plon with _ | lon
    · exact hacc
    · exact hacc
    · exact hacc
    · rw [List.forall_iff_forall_mem] at hacc ⊢
      intro x hx
      rcases List.mem_append.1 hx with h1 | h1
      · exact hacc x h1
      · rw [List.mem_singleton] at h1
        subst h1
        exact ⟨by simp, by simp⟩
  · unfold load_ground_nodes
    refine foldl_forall_aux _ _ _ [] ?_ trivial
    intro acc p _ hacc
    rcases p with ⟨plat, plon, pid, pname, ptier, pdem, pws⟩
    rcases plat with _ | lat <;> rcases plon with _ | lon
    · exact hacc
    · exact hacc
    · exact hacc
    · rw [List.forall_iff_forall_mem] at hacc ⊢
      intro x hx
      rcases List.mem_append.1 hx with h1 | h1
      · exact hacc x h1
      · rw [List.mem_singleton] at h1
        subst h1
        exact ⟨rfl, rfl⟩
  · unfold load_cable_landings
    refine foldl_forall_aux _ _ _ [] ?_ trivial
    intro acc p hp hacc
    rcases List.mem_map.1 hp with ⟨q, _, rfl⟩
    rcases q with ⟨plat, plon, pid, pname, pcc, pcables⟩
    rcases plat with _ | lat <;> rcases plon with _ | lon
    · exact hacc
    · exact hacc
    · exact hacc
    · rw [List.forall_iff_forall_mem] at hacc ⊢
      intro x hx
      rcases List.mem_append.1 hx with h1 | h1
      · exact hacc x h1
      · rw [List.mem_singleton] at h1
        subst h1
        rfl
  · unfold load_cable_landings
    refine foldl_forall_aux _ _ _ [] ?_ trivial
    intro acc p hp hacc
    rcases List.mem_map.1 hp with ⟨q, _, rfl⟩
    rcases q with ⟨plat, plon, pid, pname, pcc, pcables⟩
    rcases plat with _ | lat <;> rcases plon with _ | lon
    · exact hacc
    · exact hacc
    · exact hacc
    · rw [List.forall_iff_forall_mem] at hacc ⊢
      intro x hx
      rcases List.mem_append.1 hx with h1 | h1
      · exact hacc x h1
      · rw [List.mem_singleton] at h1
        subst h1
        rfl

/-- C6: for every longitude, `assign_zone` returns the name of the zone
whose half-open interval contains it; at most one declared interval ever
contains a longitude; any longitude outside all declared intervals
(including exactly 180 and anything below -180) falls back to `"APAC"`;
and `assign_zone (-30) = "EMEA"`. -/
theorem claim_C6 (lon : α) :
    ((-180 ≤ lon ∧ lon < -30) → assign_zone lon = "AMERICAS") ∧
    ((-30 ≤ lon ∧ lon < 60) → assign_zone lon = "EMEA") ∧
    ((60 ≤ lon ∧ lon < 180) → assign_zone lon = "APAC") ∧
    ((lon < -180 ∨ 180 ≤ lon) → assign_zone lon = "APAC") ∧
    ((ZONES α).filter
      (fun z => decide (z.2.1 ≤ lon) && decide (lon < z.2.2.1))).length ≤ 1 ∧
    assign_zone (-30 : α) = "EMEA" := by
  refine ⟨?_, ?_, ?_, ?_, ?_, ?_⟩
  · intro h
    simp [assign_zone, ZONES, List.find?, h.1, h.2]
  · intro h
    have h1 : ¬ lon < -30 := not_lt.2 h.1
    simp [assign_zone, ZONES, List.find?, h1, h.1, h.2]
  · intro h
    have h1 : ¬ lon < -30 := not_lt.2 (by linarith [h.1])
    have h2 : ¬ lon < 60 := not_lt.2 h.1
    simp [assign_zone, ZONES, List.find?, h1, h2, h.1, h.2]
  · intro h
    rcases h with h | h
    · have h1 : ¬ (-180 : α) ≤ lon := not_le.2 h
      have h2 : ¬ (-30 : α) ≤ lon := not_le.2 (by linarith)
      have h3 : ¬ (60 : α) ≤ lon := not_le.2 (by linarith)
      simp [assign_zone, ZONES, List.find?, h1, h2, h3]
    · have h1 : ¬ lon < -30 := not_lt.2 (by linarith)
      have h2 : ¬ lon < 60 := not_lt.2 (by linarith)
      have h3 : ¬ lon < 180 := not_lt.2 h
      simp [assign_zone, ZONES, List.find?, h1, h2, h3]
  · rcases lt_or_le lon (-30) with h1 | h1
    · have h2 : ¬ (-30 : α) ≤ lon := not_le.2 h1
      have h3 : ¬ (60 : α) ≤ lon := not_le.2 (by linarith)
      rcases lt_or_le lon (-180) with h0 | h0
      · have h4 : ¬ (-180 : α) ≤ lon := not_le.2 h0
        simp [ZONES, List.filter, h2, h3, h4]
      · simp [ZONES, List.filter, h0, h1, h2, h3]
    · have h2 : ¬ lon < -30 := not_lt.2 h1
      rcases lt_or_le lon 60 with h4 | h4
      · have h5 : ¬ (60 : α) ≤ lon := not_le.2 h4
        simp [ZONES, List.filter, h1, h2, h4, h5]
      · have h5 : ¬ lon < 60 := not_lt.2 h4
        rcases lt_or_le lon 180 with h6 | h6
        · simp [ZONES, List.filter, h2, h4, h5, h6]
        · have h7 : ¬ lon < 180 := not_lt.2 h6
          simp [ZONES, List.filter, h2, h5, h7]
  · have h1 : ¬ (-30 : α) < -30 := lt_irrefl _
    have h2 : (-30 : α) ≤ -30 := le_refl _
    have h3 : (-30 : α) < 60 := by norm_num
    simp [assign_zone, ZONES, List.find?, h1, h2, h3]

/-- C6 witness: the theorem applied at `α := ℚ`, `lon := -30`, with the
EMEA hypotheses discharged concretely. -/
theorem claim_C6_witness : assign_zone (-30 : ℚ) = "EMEA" :=
  (claim_C6 (-30 : ℚ)).2.1 ⟨by norm_num, by norm_num⟩

/-- C7 (amended): `haversine_km` is nonnegative, symmetric, and zero on
coordinate-identical pairs; the converse of the zero property is false
(see the counterexample), so "zero iff identical" is weakened to
"zero if identical". -/
theorem claim_C7_amended (lat1 lon1 lat2 lon2 : ℝ) :
    0 ≤ haversine_km lat1 lon1 lat2 lon2 ∧
    haversine_km lat1 lon1 lat2 lon2 = haversine_km lat2 lon2 lat1 lon1 ∧
    haversine_km lat1 lon1 lat1 lon1 = 0 :=
  ⟨haversine_nonneg _ _ _ _, haversine_symm _ _ _ _, haversine_self _ _⟩

/-- C7 counterexample: the distance between the distinct coordinate pairs
`(0, 0)` and `(0, 360)` is `0`, so `haversine_km` is not "zero iff the two
points are coordinate-identical". -/
theorem claim_C7_counterexample :
    haversine_km 0 0 0 360 = 0 ∧ ((0 : ℝ), (0 : ℝ)) ≠ ((0 : ℝ), (360 : ℝ)) := by
  constructor
  · have ha : hav_a 0 0 0 360 = 0 := by
      unfold hav_a
      rw [show radians (0 - 0 : ℝ) = 0 by unfold radians; ring,
        show radians (360 - 0 : ℝ) = 2 * π by unfold radians; ring,
        show (2 * π) / 2 = π by ring, Real.sin_pi]
      simp
    unfold haversine_km
    rw [ha]
    norm_num [atan2_zero_one]
  · intro h
    have h2 := congrArg Prod.snd h
    norm_num at h2

/-! ### Concrete distance values on the equator -/

theorem hav_a_equator (g1 g2 : ℝ) :
    hav_a 0 g1 0 g2 = Real.sin (radians (g2 - g1) / 2) ^ 2 := by
  unfold hav_a
  rw [show radians (0 - 0 : ℝ) = 0 by unfold radians; ring,
    show radians (0 : ℝ) = 0 by unfold radians; ring,
    zero_div, Real.sin_zero, Real.cos_zero]
  ring

theorem haversine_of_hav_a_half {l1 g1 l2 g2 : ℝ} (h : hav_a l1 g1 l2 g2 = 1 / 2) :
    haversine_km l1 g1 l2 g2 = 6371 * (π / 2) := by
  unfold haversine_km
  rw [h, show (1 : ℝ) - 1 / 2 = 1 / 2 by norm_num]
  have h3 : 0 < Real.sqrt (1 / 2) := Real.sqrt_pos.2 (by norm_num)
  unfold atan2
  rw [if_pos h3, div_self (ne_of_gt h3), Real.arctan_one]
  norm_num
  ring

theorem hav_0_0_0_90 : haversine_km 0 0 0 90 = 6371 * (π / 2) := by
  refine haversine_of_hav_a_half ?_
  rw [hav_a_equator, show radians (90 - 0 : ℝ) / 2 = π / 4 by unfold radians; ring,
    Real.sin_pi_div_four, div_pow, Real.sq_sqrt (by norm_num : (0:ℝ) ≤ 2)]
  norm_num

theorem hav_0_180_0_90 : haversine_km 0 180 0 90 = 6371 * (π / 2) := by
  refine haversine_of_hav_a_half ?_
  rw [hav_a_equator, show radians (90 - 180 : ℝ) / 2 = -(π / 4) by unfold radians; ring,
    Real.sin_neg, neg_sq, Real.sin_pi_div_four, div_pow,
    Real.sq_sqrt (by norm_num : (0:ℝ) ≤ 2)]
  norm_num

theorem hav_0_90_0_180 : haversine_km 0 90 0 180 = 6371 * (π / 2) := by
  refine haversine_of_hav_a_half ?_
  rw [hav_a_equator, show radians (180 - 90 : ℝ) / 2 = π / 4 by unfold radians; ring,
    Real.sin_pi_div_four, div_pow, Real.sq_sqrt (by norm_num : (0:ℝ) ≤ 2)]
  norm_num

theorem hav_0_0_0_180 : haversine_km 0 0 0 180 = 6371 * π := by
  unfold haversine_km
  rw [show hav_a 0 0 0 180 = 1 from by
    rw [hav_a_equator, show radians (180 - 0 : ℝ) / 2 = π / 2 by unfold radians; ring,
      Real.sin_pi_div_two]
    norm_num]
  rw [show (1 : ℝ) - 1 = 0 by norm_num, Real.sqrt_zero, Real.sqrt_one]
  unfold atan2
  rw [if_neg (lt_irrefl 0), if_pos one_pos]
  norm_num
  ring

/-! ### The C3 distance bound: about 13 km, certified below 50 km -/

theorem hav_c3_lt : haversine_km 40.1 (-74.05) 40 (-74) < 50 := by
  have e1 : radians (40 - 40.1 : ℝ) / 2 = -(π / 3600) := by
    unfold radians
    rw [show (40 - 40.1 : ℝ) = -(1 / 10) by norm_num]
    ring
  have e2 : radians ((-74) - (-74.05) : ℝ) / 2 = π / 7200 := by
    unfold radians
    rw [show ((-74) - (-74.05) : ℝ) = 1 / 20 by norm_num]
    ring
  have hs1 : Real.sin (radians (40 - 40.1 : ℝ) / 2) ^ 2 ≤ (π / 3600) ^ 2 := by
    rw [e1, Real.sin_neg, neg_sq]
    have hpos : 0 < π / 3600 := by positivity
    have hlt : Real.sin (π / 3600) < π / 3600 := Real.sin_lt hpos
    have hpos2 : 0 < Real.sin (π / 3600) :=
      Real.sin_pos_of_pos_of_lt_pi hpos (div_lt_self Real.pi_pos (by norm_num))
    nlinarith
  have hs2 : Real.sin (radians ((-74) - (-74.05) : ℝ) / 2) ^ 2 ≤ (π / 7200) ^ 2 := by
    rw [e2]
    have hpos : 0 < π / 7200 := by positivity
    have hlt : Real.sin (π / 7200) < π / 7200 := Real.sin_lt hpos
    have hpos2 : 0 < Real.sin (π / 7200) :=
      Real.sin_pos_of_pos_of_lt_pi hpos (div_lt_self Real.pi_pos (by norm_num))
    nlinarith
  have hc1 : Real.cos (radians (40.1 : ℝ)) ≤ 1 := Real.cos_le_one _
  have hc2 : Real.cos (radians (40 : ℝ)) ≤ 1 := Real.cos_le_one _
  have hc1' : 0 ≤ Real.cos (radians (40.1 : ℝ)) := by
    apply Real.cos_nonneg_of_mem_Icc
    unfold radians
    constructor
    · nlinarith [Real.pi_pos]
    · nlinarith [Real.pi_pos]
  have hc2' : 0 ≤ Real.cos (radians (40 : ℝ)) := by
    apply Real.cos_nonneg_of_mem_Icc
    unfold radians
    constructor
    · nlinarith [Real.pi_pos]
    · nlinarith [Real.pi_pos]
  have hprod : Real.cos (radians (40.1 : ℝ)) * Real.cos (radians (40 : ℝ)) ≤ 1 :=
    mul_le_one₀ hc1 hc2' hc2
  have hkey : Real.cos (radians (40.1 : ℝ)) * Real.cos (radians (40 : ℝ)) *
      Real.sin (radians ((-74) - (-74.05) : ℝ) / 2) ^ 2 ≤
      Real.sin (radians ((-74) - (-74.05) : ℝ) / 2) ^ 2 :=
    mul_le_of_le_one_left (sq_nonneg _) hprod
  have hpi2 : π ^ 2 < 3.15 ^ 2 := by nlinarith [Real.pi_gt_three, Real.pi_lt_d2]
  have ha_ub : hav_a 40.1 (-74.05) 40 (-74) ≤ 1 / 1000000 := by
    unfold hav_a
    nlinarith [hs1, hs2, hkey, hpi2]
  have hsqa : Real.sqrt (hav_a 40.1 (-74.05) 40 (-74)) ≤ 1 / 1000 := by
    have h := Real.sqrt_le_sqrt ha_ub
    rwa [show Real.sqrt (1 / 1000000 : ℝ) = 1 / 1000 from by
      rw [show (1 / 1000000 : ℝ) = (1 / 1000) ^ 2 by norm_num,
        Real.sqrt_sq (by norm_num : (0:ℝ) ≤ 1 / 1000)]] at h
  have hsqb : (999 / 1000 : ℝ) ≤ Real.sqrt (1 - hav_a 40.1 (-74.05) 40 (-74)) := by
    have h1 : ((999 : ℝ) / 1000) ^ 2 ≤ 1 - hav_a 40.1 (-74.05) 40 (-74) := by
      nlinarith [ha_ub]
    have h2 := Real.sqrt_le_sqrt h1
    rwa [Real.sqrt_sq (by norm_num : (0:ℝ) ≤ 999 / 1000)] at h2
  have hsqb0 : 0 < Real.sqrt (1 - hav_a 40.1 (-74.05) 40 (-74)) :=
    lt_of_lt_of_le (by norm_num) hsqb
  have hdiv : Real.sqrt (hav_a 40.1 (-74.05) 40 (-74)) /
      Real.sqrt (1 - hav_a 40.1 (-74.05) 40 (-74)) ≤ (1 / 1000 : ℝ) / (999 / 1000) :=
    div_le_div₀ (by norm_num) hsqa (by norm_num) hsqb
  have harc := arctan_le_self (div_nonneg
    (Real.sqrt_nonneg (hav_a 40.1 (-74.05) 40 (-74)))
    (Real.sqrt_nonneg (1 - hav_a 40.1 (-74.05) 40 (-74))))
  unfold haversine_km atan2
  rw [if_pos hsqb0]
  nlinarith [harc, hdiv]

/-! ### Concrete evaluation helpers -/

theorem dedup_two_merge (distF : α → α → α → α → α) (t : α)
    (cs : List (Candidate α)) (x y : Candidate α)
    (hsort : List.insertionSort importance_le cs = [x, y])
    (hd : distF y.latitude y.longitude x.latitude x.longitude < t) :
    deduplicate_candidates distF cs t = [mergeInto x y] := by
  unfold deduplicate_candidates
  rw [hsort, List.foldl_cons, List.foldl_cons, List.foldl_nil,
    show dedupStep distF t [] x = [x] from rfl]
  unfold dedupStep
  rw [show scanMerge distF t y [x] = some [mergeInto x y] from by
    simp only [scanMerge]
    rw [if_pos hd]]

theorem dedup_three_merge (distF : α → α → α → α → α) (t : α)
    (cs : List (Candidate α)) (x y z : Candidate α)
    (hsort : List.insertionSort importance_le cs = [x, y, z])
    (hd1 : distF y.latitude y.longitude x.latitude x.longitude < t)
    (hd2 : distF z.latitude z.longitude x.latitude x.longitude < t) :
    deduplicate_candidates distF cs t = [mergeInto (mergeInto x y) z] := by
  unfold deduplicate_candidates
  rw [hsort, List.foldl_cons, List.foldl_cons, List.foldl_cons, List.foldl_nil,
    show dedupStep distF t [] x = [x] from rfl]
  rw [show dedupStep distF t [x] y = [mergeInto x y] from by
    unfold dedupStep
    rw [show scanMerge distF t y [x] = some [mergeInto x y] from by
      simp only [scanMerge]
      rw [if_pos hd1]]]
  unfold dedupStep
  rw [show scanMerge distF t z [mergeInto x y] = some [mergeInto (mergeInto x y) z] from by
    simp only [scanMerge, mergeInto_latitude, mergeInto_longitude]
    rw [if_pos hd2]]

/-! ### Claim theorems (concrete scenarios) -/

/-- C3: if the input consists of exactly one ground-node record and one
cable-landing record (with `merged_sources` still unset, as the normalizer
produces them) whose great-circle distance is below the threshold, then —
in either input order — the output is a single candidate whose source is
`"ground_node"` and whose `merged_sources` lists both source tags in
order.  Concretely, for the ground node at `(40.0, -74.0)` (no cable
count) and the cable landing at `(40.1, -74.05)` (cable count 5) at
threshold 50 km: their distance is below 50, and the output is a single
candidate with source `"ground_node"`, cable count 5, and
`merged_sources = ["ground_node", "cable_landing"]`. -/
theorem claim_C3 :
    (∀ (g c : Candidate ℝ) (t : ℝ),
      g.source = "ground_node" → c.source = "cable_landing" →
      g.merged_sources = none →
      haversine_km g.latitude g.longitude c.latitude c.longitude < t →
      ((deduplicate_candidates haversine_km [g, c] t).length = 1 ∧
        (deduplicate_candidates haversine_km [g, c] t).map Candidate.source =
          ["ground_node"] ∧
        (deduplicate_candidates haversine_km [g, c] t).map Candidate.merged_sources =
          [some ["ground_node", "cable_landing"]]) ∧
      ((deduplicate_candidates haversine_km [c, g] t).length = 1 ∧
        (deduplicate_candidates haversine_km [c, g] t).map Candidate.source =
          ["ground_node"] ∧
        (deduplicate_candidates haversine_km [c, g] t).map Candidate.merged_sources =
          [some ["ground_node", "cable_landing"]])) ∧
    haversine_km c3_g.latitude c3_g.longitude c3_c.latitude c3_c.longitude < 50 ∧
    (deduplicate_candidates haversine_km [c3_g, c3_c] 50).length = 1 ∧
    (deduplicate_candidates haversine_km [c3_g, c3_c] 50).map Candidate.source =
      ["ground_node"] ∧
    (deduplicate_candidates haversine_km [c3_g, c3_c] 50).map Candidate.cable_count =
      [some 5] ∧
    (deduplicate_candidates haversine_km [c3_g, c3_c] 50).map Candidate.merged_sources =
      [some ["ground_node", "cable_landing"]] := by
  constructor
  · intro g c t hg hc hgm hd
    have h1 : importance g = (0, -(g.cable_count.getD 0)) := by
      unfold importance
      rw [hg, if_pos rfl]
    have h2 : importance c = (1, -(c.cable_count.getD 0)) := by
      unfold importance
      rw [hc, if_neg (by decide : ¬ ("cable_landing" : String) = "ground_node")]
    have himp : importance_le g c := by
      unfold importance_le
      rw [h1, h2]
      unfold tupleLe
      simp
    have himp2 : ¬ importance_le c g := by
      unfold importance_le
      rw [h1, h2]
      unfold tupleLe
      simp
    have hsort1 : List.insertionSort importance_le [g, c] = [g, c] := by
      simp [List.insertionSort, List.orderedInsert, himp]
    have hsort2 : List.insertionSort importance_le [c, g] = [g, c] := by
      simp [List.insertionSort, List.orderedInsert, himp2]
    have hd' : haversine_km c.latitude c.longitude g.latitude g.longitude < t := by
      rw [haversine_symm]
      exact hd
    have he1 := dedup_two_merge haversine_km t [g, c] g c hsort1 hd'
    have he2 := dedup_two_merge haversine_km t [c, g] g c hsort2 hd'
    have hsrc : (mergeInto g c).source = "ground_node" := by
      rw [show (mergeInto g c).source = g.source from rfl, hg]
    have hms : (mergeInto g c).merged_sources = some ["ground_node", "cable_landing"] := by
      show some (g.merged_sources.getD [g.source] ++ [c.source]) = _
      rw [hgm, hg, hc]
      rfl
    constructor
    · rw [he1]
      exact ⟨rfl, by simp [hsrc], by simp [hms]⟩
    · rw [he2]
      exact ⟨rfl, by simp [hsrc], by simp [hms]⟩
  · have hd : haversine_km c3_c.latitude c3_c.longitude c3_g.latitude c3_g.longitude < 50 :=
      hav_c3_lt
    have heval := dedup_two_merge haversine_km 50 [c3_g, c3_c] c3_g c3_c rfl hd
    refine ⟨?_, ?_, ?_, ?_, ?_⟩
    · show haversine_km 40 (-74) 40.1 (-74.05) < 50
      rw [haversine_symm]
      exact hav_c3_lt
    · rw [heval]; rfl
    · rw [heval]; rfl
    · rw [heval]; rfl
    · rw [heval]; rfl

/-- C3 witness: the universally quantified clause of C3 applied to the
concrete ground-node/cable-landing pair at threshold 50 km, every
hypothesis discharged there. -/
theorem claim_C3_witness :
    (deduplicate_candidates haversine_km [c3_g, c3_c] 50).map Candidate.source =
      ["ground_node"] :=
  ((claim_C3.1 c3_g c3_c 50 rfl rfl rfl
    (by rw [haversine_symm]; exact hav_c3_lt)).1).2.1

/-- C8: the chain `A=(0,0)`, `B=(0,90)`, `C=(0,180)` with threshold
11000 km: A-B and B-C are within threshold, A-C is not, `B` (a ground node)
precedes `A` and `C` (cable landings) in the importance order, and the
output is `B` alone with both `A` and `C` merged into it. -/
theorem claim_C8 :
    haversine_km c8_A.latitude c8_A.longitude c8_B.latitude c8_B.longitude < 11000 ∧
    haversine_km c8_B.latitude c8_B.longitude c8_C.latitude c8_C.longitude < 11000 ∧
    11000 ≤ haversine_km c8_A.latitude c8_A.longitude c8_C.latitude c8_C.longitude ∧
    tupleLt (importance c8_B) (importance c8_A) = true ∧
    tupleLt (importance c8_B) (importance c8_C) = true ∧
    (deduplicate_candidates haversine_km [c8_A, c8_B, c8_C] 11000).map Candidate.id =
      ["B"] ∧
    (deduplicate_candidates haversine_km [c8_A, c8_B, c8_C] 11000).map
      Candidate.merged_sources =
        [some ["ground_node", "cable_landing", "cable_landing"]] := by
  have h1 : haversine_km 0 0 0 90 < 11000 := by
    rw [hav_0_0_0_90]
    nlinarith [Real.pi_lt_d2]
  have h2 : haversine_km 0 180 0 90 < 11000 := by
    rw [hav_0_180_0_90]
    nlinarith [Real.pi_lt_d2]
  have h3 : haversine_km 0 90 0 180 < 11000 := by
    rw [hav_0_90_0_180]
    nlinarith [Real.pi_lt_d2]
  have h4 : (11000 : ℝ) ≤ haversine_km 0 0 0 180 := by
    rw [hav_0_0_0_180]
    nlinarith [Real.pi_gt_three]
  have heval := dedup_three_merge haversine_km 11000 [c8_A, c8_B, c8_C] c8_B c8_A c8_C
    rfl h1 h2
  refine ⟨h1, h3, h4, rfl, rfl, ?_, ?_⟩
  · rw [heval]; rfl
  · rw [heval]; rfl

/-- C1 counterexample: a ground-node representative holding
`cable_count = 0` absorbs a cable landing with `cable_count = 5`
(`merged_sources` proves the merge happened); the maximum cable count
observed across the two records is 5, yet the surviving representative's
`cable_count` is still `0` — refuting "cable_count, when present, equals
the maximum cable count observed". -/
theorem claim_C1_counterexample :
    (deduplicate_candidates haversine_km [c1_g, c1_c] 1).map Candidate.cable_count =
      [some 0] ∧
    (([c1_g, c1_c].map Candidate.cable_count).filterMap id).max? = some 5 ∧
    (deduplicate_candidates haversine_km [c1_g, c1_c] 1).map Candidate.merged_sources =
      [some ["ground_node", "cable_landing"]] := by
  have hd : haversine_km c1_c.latitude c1_c.longitude c1_g.latitude c1_g.longitude < 1 := by
    show haversine_km 0 0 0 0 < 1
    rw [haversine_self]
    norm_num
  have heval := dedup_two_merge haversine_km 1 [c1_g, c1_c] c1_g c1_c rfl hd
  refine ⟨?_, rfl, ?_⟩
  · rw [heval]; rfl
  · rw [heval]; rfl

/-- C4 counterexample: the representative has no weather score; the first
duplicate in scan order provides `weather_score = 0.0`, the second
provides `1.0`.  The first value provided in scan order is `0`, but the
code's truthiness check skips it, and the surviving representative ends
with `weather_score = 1` — refuting "weather_score equals the value of
the first record in scan order that provides a weather_score". -/
theorem claim_C4_counterexample :
    List.insertionSort importance_le [c4_r, c4_d1, c4_d2] = [c4_r, c4_d1, c4_d2] ∧
    (deduplicate_candidates haversine_km [c4_r, c4_d1, c4_d2] 1).map
      Candidate.weather_score = [some 1] ∧
    (([c4_r, c4_d1, c4_d2].map Candidate.weather_score).filterMap id).head? = some 0 := by
  have hd1 : haversine_km c4_d1.latitude c4_d1.longitude c4_r.latitude c4_r.longitude < 1 := by
    show haversine_km 0 0 0 0 < 1
    rw [haversine_self]
    norm_num
  have hd2 : haversine_km c4_d2.latitude c4_d2.longitude c4_r.latitude c4_r.longitude < 1 := by
    show haversine_km 0 0 0 0 < 1
    rw [haversine_self]
    norm_num
  have heval := dedup_three_merge haversine_km 1 [c4_r, c4_d1, c4_d2] c4_r c4_d1 c4_d2
    rfl hd1 hd2
  refine ⟨rfl, ?_, rfl⟩
  rw [heval]
  have hw1 : (mergeInto c4_r c4_d1).weather_score = none := by
    show (if c4_r.weather_score = none ∧ pyTruthy c4_d1.weather_score = true
      then c4_d1.weather_score else c4_r.weather_score) = none
    norm_num [c4_r, c4_d1, pyTruthy]
  have hw2 : (mergeInto (mergeInto c4_r c4_d1) c4_d2).weather_score = some 1 := by
    show (if (mergeInto c4_r c4_d1).weather_score = none ∧
        pyTruthy c4_d2.weather_score = true
      then c4_d2.weather_score else (mergeInto c4_r c4_d1).weather_score) = some 1
    rw [hw1]
    norm_num [c4_d2, pyTruthy]
  simp [hw2]
